import Mathlib

/-!
Verification development for the notebook persistence and hot-exit recovery
subsystem of `src/client/datascience/interactive-ipynb/nativeEditorStorage.ts`
(`NativeEditorStorage`).  The TypeScript code is shallowly embedded: JavaScript
strings that may or may not parse as JSON are modelled by `RawText`, parsed
JSON values by `JsonVal`, the asynchronous single-threaded execution by pure
state passing, and external collaborators (crypto hash, trust service, uuid
generator, detect-indent, interpreter lookup) by parameters collected in `Env`.
-/

namespace NativeEditorStorage

mutual
/-- A JSON value as produced by `JSON.parse`.  String values carry `RawText`
because stored notebook contents are themselves texts that may be parsed
again. -/
inductive JsonVal : Type where
  | str (s : RawText)
  | num (n : Nat)
  | bool (b : Bool)
  | null
  | arr (xs : List JsonVal)
  | obj (fields : List (String × JsonVal))

/-- A JavaScript string: either text that `JSON.parse` rejects (`plain`) or
text that parses to a `JsonVal` (`json`).  `JSON.stringify v` is `json v`. -/
inductive RawText : Type where
  | plain (s : String)
  | json (v : JsonVal)
end

/-- `JSON.parse`: fails exactly on non-JSON text. -/
def parseJson : RawText → Option JsonVal
  | .plain _ => none
  | .json v => some v

/-- JavaScript truthiness of a string: empty string is falsy.  Text that
parses as JSON is never the empty string. -/
def RawText.truthyText : RawText → Bool
  | .plain s => s ≠ ""
  | .json _ => true

/-- JavaScript truthiness of a JSON value (`0`, `""`, `false`, `null` are
falsy; objects and arrays are truthy). -/
def JsonVal.truthy : JsonVal → Bool
  | .str s => s.truthyText
  | .num n => n ≠ 0
  | .bool b => b
  | .null => false
  | .arr _ => true
  | .obj _ => true

/-- Property access `v.k` on a parsed JSON value; anything but an object
yields `undefined`. -/
def JsonVal.getField : JsonVal → String → Option JsonVal
  | .obj fields, k => List.lookup k fields
  | _, _ => none

/-- Truthiness of a possibly-`undefined` JSON value. -/
def optTruthy : Option JsonVal → Bool
  | none => false
  | some v => v.truthy

/-- Truthiness of a possibly-`undefined` JavaScript string. -/
def optTruthyText : Option RawText → Bool
  | none => false
  | some r => r.truthyText

/-- Optional-chaining field access `v?.k`. -/
def optGetField (o : Option JsonVal) (k : String) : Option JsonVal :=
  o.bind (fun v => v.getField k)

/-- A JSON value used where the code expects a string (`data.contents` is
declared as a string).  String values pass through; other values are modelled
by their JSON text. -/
def jsValToText : JsonVal → RawText
  | .str r => r
  | v => .json v

/-- Numeric comparison `a > v` against a parsed JSON value; a non-numeric
right-hand side compares as `NaN`, which is never exceeded. -/
def jsGtNum (a : Nat) : Option JsonVal → Bool
  | some (.num n) => a > n
  | _ => false

/-- A document identity (`vscode.Uri`): a scheme and a filesystem path. -/
structure Uri : Type where
  scheme : String
  path : String
  deriving DecidableEq

/-- `Uri.toString()`. -/
def Uri.asString (u : Uri) : String := u.scheme ++ "://" ++ u.path

/-- `Uri.fsPath`. -/
def Uri.fsPath (u : Uri) : String := u.path

/-- Modelled from the spec: `isUntitledFile` from `common/utils/misc` is not
among the sources here; an untitled (unsaved, never persisted) document is
detected by a scheme convention. -/
def isUntitledFile (u : Uri) : Bool := u.scheme == "untitled"

/-- An entry of the byte-oriented file system collaborator: content plus
modification time (`stat.mtime`). -/
structure FileEntry : Type where
  content : RawText
  mtime : Nat

/-- The file system collaborator (`IFileSystem`): a finite map from paths to
entries, represented as an association list. -/
structure FileSys : Type where
  files : List (String × FileEntry)

/-- `fileSystem.readFile`: `none` models the call rejecting with a
file-not-found error. -/
def fsReadFile (fs : FileSys) (p : String) : Option RawText :=
  (List.lookup p fs.files).map (fun e => e.content)

/-- `fileSystem.stat(..).mtime`: `none` models the call rejecting. -/
def fsStat (fs : FileSys) (p : String) : Option Nat :=
  (List.lookup p fs.files).map (fun e => e.mtime)

/-- `fileSystem.writeFile`: create or replace the entry, stamping the current
clock as its modification time. -/
def fsWriteFile (fs : FileSys) (p : String) (c : RawText) (t : Nat) : FileSys :=
  ⟨(p, ⟨c, t⟩) :: fs.files.filter (fun kv => kv.1 ≠ p)⟩

/-- `fileSystem.deleteFile`: removing a missing path simply leaves the map
unchanged (the file-not-found rejection is caught by every caller in the
source). -/
def fsDeleteFile (fs : FileSys) (p : String) : FileSys :=
  ⟨fs.files.filter (fun kv => kv.1 ≠ p)⟩

/-- A `vscode.Memento` key/value store, as an association list.  The hidden
`_value` map iterated by `transferStorage` is the list itself. -/
abbrev Memento := List (String × JsonVal)

/-- `memento.get(key)`. -/
def mementoGet (m : Memento) (k : String) : Option JsonVal :=
  List.lookup k m

/-- `memento.update(key, value)`: `none` removes the key, `some x` replaces
the binding in place or appends a fresh one. -/
def mementoUpdate (m : Memento) (k : String) (v : Option JsonVal) : Memento :=
  match v with
  | none => m.filter (fun kv => kv.1 ≠ k)
  | some x =>
    if m.any (fun kv => kv.1 == k) then
      m.map (fun kv => if kv.1 == k then (k, x) else kv)
    else
      m ++ [(k, x)]

/-- External collaborators of `NativeEditorStorage`, modelled as pure
functions: the crypto hash (`ICryptoUtils.createHash`), the extension's
global storage path (`IExtensionContext.globalStoragePath`), the trust
verifier (`ITrustService.isNotebookTrusted`), the `detect-indent` library,
the usable interpreter's major version (`IJupyterExecution`), and the next
value of the `uuid` generator. -/
structure Env : Type where
  hash : String → String
  globalStoragePath : String
  isNotebookTrusted : String → RawText → Bool
  detectIndent : RawText → String
  usableInterpreterMajor : Option Nat
  uuid : String

/-- JavaScript `s.startsWith(pre)`, on the character sequences. -/
def strStartsWith (s pre : String) : Bool := pre.data.isPrefixOf s.data

/-- `const KeyPrefix = 'notebook-storage-'`. -/
def KeyPrefixStr : String := "notebook-storage-"

/-- `const NotebookTransferKey = 'notebook-transfered'`. -/
def NotebookTransferKey : String := "notebook-transfered"

/-- `getStaticStorageKey`: the deterministic fallback storage key. -/
def getStaticStorageKey (file : Uri) : String :=
  KeyPrefixStr ++ file.asString

/-- JavaScript `a || b` on an optional string: an absent or empty id falls
back to the default. -/
def jsOr (a : Option String) (d : String) : String :=
  match a with
  | some s => if s == "" then d else s
  | none => d

/-- `path.dirname`. -/
def dirname (p : String) : String :=
  String.intercalate "/" ((p.splitOn "/").dropLast)

/-- `getHashedFileName`: `path.join(globalStoragePath, hash(key) + '.ipynb')`. -/
def getHashedFileName (env : Env) (key : String) : String :=
  env.globalStoragePath ++ "/" ++ env.hash key ++ ".ipynb"

/-- The execution/display state of a cell (`CellState` from the datascience
types module, which is not among the sources here; the spec lists exactly
these four states). -/
inductive CellState : Type where
  | notYetRun
  | running
  | finished
  | error
  deriving DecidableEq

/-- Modelled from the spec: `Identifiers.EmptyFileName`, the opaque sentinel
used as the source-location marker of imported cells (the constants module is
not among the sources here; its concrete value is immaterial). -/
def emptyFileName : String := "<empty>"

/-- An in-memory cell as assembled by the loader: stable identifier,
source-location marker, state, and opaque interchange-format data. -/
structure NBCell : Type where
  id : String
  file : String
  line : Nat
  state : CellState
  data : JsonVal

/-- Modelled from the spec: `createCodeCell` from the cell factory
(`datascience-ui/common/cellFactory`, not among the sources here) produces an
empty code cell in the interchange format. -/
def createCodeCell : JsonVal :=
  .obj
    [ ("cell_type", .str (.plain "code"))
    , ("execution_count", .null)
    , ("metadata", .obj [])
    , ("outputs", .arr [])
    , ("source", .arr []) ]

/-- `createEmptyCell(id)` from `NativeEditorStorage`. -/
def createEmptyCell (id : String) : NBCell :=
  { id := id
  , line := 0
  , file := emptyFileName
  , state := CellState.finished
  , data := createCodeCell }

/-- The fields handed to `INotebookModelFactory.createModel`. -/
structure ModelFields : Type where
  trusted : Bool
  file : Uri
  cells : List NBCell
  notebookJson : Option JsonVal := none
  indentAmount : Option String := none
  pythonNumber : Nat := 3
  initiallyDirty : Bool := false

/-- The in-memory Notebook Model as built by the factory. -/
structure NotebookModel : Type where
  trusted : Bool
  file : Uri
  cells : List NBCell
  notebookJson : Option JsonVal
  indentAmount : Option String
  pythonNumber : Nat
  initiallyDirty : Bool

/-- Modelled from the spec: `INotebookModelFactory.createModel` (the factory
implementation is not among the sources here) builds a Notebook Model from
loader-assembled fields; per the data-model invariant a model's cell sequence
is never empty, so when handed zero cells it synthesizes exactly one empty
code cell with a freshly generated unique identifier. -/
def factoryCreateModel (env : Env) (f : ModelFields) : NotebookModel :=
  { trusted := f.trusted
  , file := f.file
  , cells := if f.cells.isEmpty then [createEmptyCell env.uuid] else f.cells
  , notebookJson := f.notebookJson
  , indentAmount := f.indentAmount
  , pythonNumber := f.pythonNumber
  , initiallyDirty := f.initiallyDirty }

/-- An observable file-system side effect of the write path. -/
inductive StorageOp : Type where
  | createDir (p : String)
  | write (p : String) (c : RawText)
  | delete (p : String)

/-- Whether a storage operation is a file write. -/
def StorageOp.isWrite : StorageOp → Bool
  | .write _ _ => true
  | _ => false

/-- Number of file writes in a trace. -/
def countWrites (t : List StorageOp) : Nat :=
  (t.filter StorageOp.isWrite).length

/-- `writeToStorage(filePath, contents?, cancelToken?)`: truthy contents are
written after ensuring the directory exists, absent contents delete the file
(a missing file is not an error); the cancellation token is polled before the
directory step and before the write (modelled as one constant token state),
and a cancelled request performs no I/O.  All failures are caught inside, so
the function always completes. -/
def writeToStorage (fs : FileSys) (clock : Nat) (filePath : String)
    (contents : Option RawText) (cancelled : Bool) : FileSys × List StorageOp :=
  if cancelled then (fs, [])
  else
    match contents with
    | some c =>
      if c.truthyText then
        (fsWriteFile fs filePath c clock, [.createDir (dirname filePath), .write filePath c])
      else (fsDeleteFile fs filePath, [.delete filePath])
    | none => (fsDeleteFile fs filePath, [.delete filePath])

/-- The JSON envelope `JSON.stringify({ contents, lastModifiedTimeMs })`
written by a backup. -/
def mkEnvelope (c : RawText) (t : Nat) : RawText :=
  .json (.obj [("contents", .str c), ("lastModifiedTimeMs", .num t)])

/-- `storeContentsInHotExitFile(model, cancelToken?, backupId?)`: serialize
the model (`content` is the result of `model.getContent()`), pick the storage
key, and write the timestamped envelope — or delete the record when the
serialized content is falsy. -/
def storeContentsInHotExitFile (env : Env) (fs : FileSys) (clock : Nat)
    (content : RawText) (file : Uri) (cancelled : Bool) (backupId : Option String) :
    FileSys × List StorageOp :=
  let key := jsOr backupId (getStaticStorageKey file)
  let filePath := getHashedFileName env key
  let specialContents := if content.truthyText then some (mkEnvelope content clock) else none
  writeToStorage fs clock filePath specialContents cancelled

/-- `clearHotExit(file, backupId?)`: delete the Backup Record for the key. -/
def clearHotExit (env : Env) (fs : FileSys) (file : Uri) (backupId : Option String) :
    FileSys × List StorageOp :=
  let key := jsOr backupId (getStaticStorageKey file)
  writeToStorage fs 0 (getHashedFileName env key) none false

/-- `transferStorage()`: set the persisted migration flag, then remove every
entry of the global store whose key starts with the storage-key prefix
(iterating a snapshot of the keys, as the source does over `_value`). -/
def transferStorage (g : Memento) : Memento :=
  let g1 := mementoUpdate g NotebookTransferKey (some (.bool true))
  (g1.map (fun kv => kv.1)).foldl
    (fun acc k => if strStartsWith k KeyPrefixStr then mementoUpdate acc k none else acc) g1

/-- The envelope-to-contents step shared by the first two tiers:
`if (data && data.contents) { return data.contents; }`. -/
def readEnvelopeContents (data : Option JsonVal) : Option RawText :=
  if optTruthy data && optTruthy (optGetField data "contents") then
    (optGetField data "contents").map jsValToText
  else none

/-- `getStoredContentsFromFile(file, key)`: tier 1, the content-addressed
file store.  Read failures and parse failures are caught and yield absence;
a record stale with respect to the real file's modification time is
ignored. -/
def getStoredContentsFromFile (env : Env) (fs : FileSys) (file : Uri) (key : String) :
    Option RawText :=
  match fsReadFile fs (getHashedFileName env key) with
  | none => none
  | some raw =>
    match parseJson raw with
    | none => none
    | some data =>
      if data.truthy && optTruthy (data.getField "lastModifiedTimeMs")
          && file.scheme == "file" then
        match fsStat fs file.fsPath with
        | none => none
        | some mtime =>
          if jsGtNum mtime (data.getField "lastModifiedTimeMs") then none
          else readEnvelopeContents (some data)
      else readEnvelopeContents (some data)

/-- `getStoredContentsFromGlobalStorage(file, key)`: tier 2, the legacy
global key/value store.  Any present (truthy) data triggers the migration
sweep; the same staleness check as tier 1 applies. -/
def getStoredContentsFromGlobalStorage (fs : FileSys) (g : Memento) (file : Uri)
    (key : String) : Option RawText × Memento :=
  let data := mementoGet g key
  let g1 := if optTruthy data then transferStorage g else g
  if optTruthy data && optTruthy (optGetField data "lastModifiedTimeMs")
      && file.scheme == "file" then
    match fsStat fs file.fsPath with
    | none => (none, g1)
    | some mtime =>
      if jsGtNum mtime (optGetField data "lastModifiedTimeMs") then (none, g1)
      else (readEnvelopeContents data, g1)
  else (readEnvelopeContents data, g1)

/-- `getStoredContentsFromLocalStorage(file, key)`: tier 3, the legacy
workspace key/value store; a found entry is cleared immediately upon read. -/
def getStoredContentsFromLocalStorage (l : Memento) (key : String) :
    Option RawText × Memento :=
  match mementoGet l key with
  | some v => if v.truthy then (some (jsValToText v), mementoUpdate l key none) else (none, l)
  | none => (none, l)

/-- `getStoredContents(file, backupId?)`: resolve the storage key and search
the three tiers in precedence order, stopping at the first truthy result. -/
def getStoredContents (env : Env) (fs : FileSys) (g : Memento) (l : Memento)
    (file : Uri) (backupId : Option String) : Option RawText × Memento × Memento :=
  let key := jsOr backupId (getStaticStorageKey file)
  let result := getStoredContentsFromFile env fs file key
  if optTruthyText result then (result, g, l)
  else
    let r2 := getStoredContentsFromGlobalStorage fs g file key
    if optTruthyText r2.1 then (r2.1, r2.2, l)
    else
      let r3 := getStoredContentsFromLocalStorage l key
      (r3.1, r2.2, r3.2)

/-- The failures that can escape the body of `loadFromFile`'s `try` block:
a failing file read, a `JSON.parse` failure, an `InvalidNotebookFileError`
(parsed content with a falsy `cells`), and a truthy but non-array `cells`
(whose `.map` throws). -/
inductive LoadError : Type where
  | fileNotFound
  | parseError
  | invalidNotebookFile (p : String)
  | cellsNotArray

/-- `extractPythonMainVersion(notebookData)`: the numeric
`metadata.language_info.codemirror_mode.version` if present, else the usable
interpreter's major version, else 3. -/
def extractPythonMainVersion (env : Env) (nb : JsonVal) : Nat :=
  match optGetField (optGetField (optGetField (nb.getField "metadata")
      "language_info") "codemirror_mode") "version" with
  | some (.num v) => v
  | _ =>
    match env.usableInterpreterMajor with
    | some m => m
    | none => 3

/-- `const json = contents ? JSON.parse(contents) : undefined`. -/
def parseContentsStep (contents : Option RawText) : Except LoadError (Option JsonVal) :=
  match contents with
  | some r =>
    if r.truthyText then
      match parseJson r with
      | some v => .ok (some v)
      | none => .error .parseError
    else .ok none
  | none => .ok none

/-- `const cells = json ? json.cells : []`, where mapping over a truthy
non-array throws. -/
def cellsStep (json : Option JsonVal) : Except LoadError (List JsonVal) :=
  if optTruthy json then
    match optGetField json "cells" with
    | some (.arr xs) => .ok xs
    | _ => .error .cellsNotArray
  else .ok []

/-- The cell remapping of `loadContents`: every imported cell gets the
synthetic identifier `NotebookImport#<index>` and the finished display state;
when no cell was produced, exactly one empty code cell with a freshly
generated unique identifier is synthesized. -/
def remapCells (env : Env) (cells : List JsonVal) : List NBCell :=
  let remapped := cells.enum.map (fun ic =>
    ({ id := "NotebookImport#" ++ toString ic.1
     , file := emptyFileName
     , line := 0
     , state := CellState.finished
     , data := ic.2 } : NBCell))
  if remapped.length = 0 then [createEmptyCell env.uuid] else remapped

/-- `loadContents(file, contents, isInitiallyDirty, trueContents)`: parse,
reject parsed content with a falsy `cells`, remap imported cells to synthetic
identifiers in the finished state, synthesize one empty cell when none were
produced, and compute trust — for a dirty load against the on-disk
(`trueContents`) text. -/
def loadContents (env : Env) (file : Uri) (contents : Option RawText)
    (isInitiallyDirty : Bool) (trueContents : Option RawText) :
    Except LoadError NotebookModel :=
  match parseContentsStep contents with
  | .error e => .error e
  | .ok json =>
    if optTruthy json && !optTruthy (optGetField json "cells") then
      .error (.invalidNotebookFile file.fsPath)
    else
      let indentAmount := if optTruthyText contents then contents.map env.detectIndent else none
      match cellsStep json with
      | .error e => .error e
      | .ok cells =>
        let remapped := remapCells env cells
        let pythonNumber :=
          if optTruthy json then extractPythonMainVersion env (json.getD .null) else 3
        let contentsToCheck :=
          if isInitiallyDirty && trueContents.isSome then trueContents else contents
        let isTrusted :=
          if contents.isNone || isUntitledFile file then true
          else env.isNotebookTrusted file.asString (contentsToCheck.getD (.plain ""))
        .ok (factoryCreateModel env
          { trusted := isTrusted
          , file := file
          , cells := remapped
          , notebookJson := json
          , indentAmount := indentAmount
          , pythonNumber := pythonNumber
          , initiallyDirty := isInitiallyDirty })

/-- The mutable world a load runs against: the file system (which also holds
the hot-exit records), the global memento, and the workspace memento. -/
structure World : Type where
  fs : FileSys
  glob : Memento
  work : Memento

/-- The polymorphic second option of `load`/`loadFromFile`: absent, a boolean
skip flag, or a string backup id. -/
inductive LoadOptions : Type where
  | undef
  | bool (b : Bool)
  | str (s : String)

/-- `const skipDirtyContents = typeof options === 'boolean' ? options :
!!options`. -/
def optionsSkipDirty : LoadOptions → Bool
  | .bool b => b
  | .undef => false
  | .str s => s ≠ ""

/-- `const backupId = typeof options === 'string' ? options :
skipDirtyContents ? undefined : getStaticStorageKey(file)`. -/
def optionsBackupId (file : Uri) : LoadOptions → Option String
  | .str s => some s
  | o => if optionsSkipDirty o then none else some (getStaticStorageKey file)

/-- The body of `loadFromFile`'s `try` block: read the on-disk contents
(caller-supplied for untitled documents), decode the polymorphic option,
delete the Backup Record when skipping, otherwise query the storage tiers,
and hand off to `loadContents` — dirty when dirty contents were found. -/
def readStep (w : World) (file : Uri) (possibleContents : Option RawText) :
    Except LoadError (Option RawText) :=
  if isUntitledFile file then .ok possibleContents
  else
    match fsReadFile w.fs file.fsPath with
    | some r => .ok (some r)
    | none => .error .fileNotFound

def loadFromFileCore (env : Env) (w : World) (file : Uri)
    (possibleContents : Option RawText) (options : LoadOptions) :
    Except LoadError NotebookModel × World :=
  match readStep w file possibleContents with
  | .error e => (.error e, w)
  | .ok contents =>
    let skipDirtyContents := optionsSkipDirty options
    let backupId := optionsBackupId file options
    let w1 := if skipDirtyContents then { w with fs := (clearHotExit env w.fs file backupId).1 } else w
    let q := if skipDirtyContents then (none, w1.glob, w1.work)
             else getStoredContents env w1.fs w1.glob w1.work file backupId
    let w2 := { w1 with glob := q.2.1, work := q.2.2 }
    if optTruthyText q.1 then (loadContents env file q.1 true contents, w2)
    else (loadContents env file contents false none, w2)

/-- The model built by `loadFromFile`'s `catch` clause:
`factory.createModel({ trusted: true, file, cells: [] })`. -/
def fallbackModel (env : Env) (file : Uri) : NotebookModel :=
  factoryCreateModel env { trusted := true, file := file, cells := [] }

/-- `loadFromFile`: the `try` body with every failure caught and turned into
the fresh trusted fallback model.  The function is total: no failure escapes
to the caller. -/
def loadFromFile (env : Env) (w : World) (file : Uri)
    (possibleContents : Option RawText) (options : LoadOptions) :
    NotebookModel × World :=
  match loadFromFileCore env w file possibleContents options with
  | (.ok m, w') => (m, w')
  | (.error _, w') => (fallbackModel env file, w')

/-- A call to `backup(model, cancellation, backupId?)`: the model's
serialized content (`model.getContent()` is read synchronously at the start
of the store), the cancellation token's state, and the optional backup id. -/
structure BackupRequest : Type where
  content : RawText
  cancelled : Bool
  backupId : Option String

/-- The object saved in `backupRequested` while a backup is in flight:
`{ model, cancellation }` — the source captures only these two fields. -/
structure PendingRequest : Type where
  content : RawText
  cancelled : Bool

/-- The Backup Coordinator's state: the `backingUp` flag, the single
`backupRequested` slot, the file system, a clock for `Date.now()`, and the
trace of storage operations performed so far. -/
structure CoordState : Type where
  backingUp : Bool
  backupRequested : Option PendingRequest
  fs : FileSys
  clock : Nat
  trace : List StorageOp

/-- A `backup` call arriving while a write is in flight: the new request
replaces any previously queued pending request (`this.backupRequested =
{ model, cancellation }`) and the call returns immediately.  (Entry while
idle is modelled by `runBurst`'s flight steps.) -/
def backupArrive (s : CoordState) (r : BackupRequest) : CoordState :=
  if s.backingUp then { s with backupRequested := some ⟨r.content, r.cancelled⟩ } else s

/-- Completion of an in-flight backup write: the store's effects land and the
`finally` block resets `backingUp`. -/
def completeFlight (env : Env) (file : Uri) (r : BackupRequest) (s : CoordState) :
    CoordState :=
  let res := storeContentsInHotExitFile env s.fs s.clock r.content file r.cancelled r.backupId
  { s with fs := res.1, clock := s.clock + 1, trace := s.trace ++ res.2, backingUp := false }

/-- The `finally` block's drain: while a pending request exists, clear the
slot and recurse into `backup(requested.model, requested.cancellation)` —
with no backup id, as in the source.  Fuel bounds the recursion; one unit per
possible pending request suffices since no new requests arrive during the
drain. -/
def drainPending (env : Env) (file : Uri) : Nat → CoordState → CoordState
  | 0, s => s
  | Nat.succ fuel, s =>
    match s.backupRequested with
    | none => s
    | some p =>
      let s1 := completeFlight env file ⟨p.content, p.cancelled, none⟩
        { s with backupRequested := none, backingUp := true }
      drainPending env file fuel s1

/-- A burst: `r0` enters while Idle and its write goes in flight; the
requests `rs` arrive while it is writing; the in-flight write then completes
and the pending slot is drained. -/
def runBurst (env : Env) (file : Uri) (r0 : BackupRequest) (rs : List BackupRequest)
    (fs0 : FileSys) : CoordState :=
  let s1 : CoordState :=
    { backingUp := true, backupRequested := none, fs := fs0, clock := 0, trace := [] }
  let s2 := rs.foldl backupArrive s1
  let s3 := completeFlight env file r0 s2
  drainPending env file (rs.length + 1) s3

/-! Concrete instances used to exercise the definitions. -/

/-- A concrete environment: identity hash, storage path `gs`, a trust
verifier that trusts nothing, two-space indent, interpreter major 3. -/
def cEnv : Env :=
  { hash := fun s => s
  , globalStoragePath := "gs"
  , isNotebookTrusted := fun _ _ => false
  , detectIndent := fun _ => "  "
  , usableInterpreterMajor := some 3
  , uuid := "fresh-uuid-1" }

/-- A concrete saved notebook identity. -/
def cFile : Uri := ⟨"file", "nb.ipynb"⟩

/-- A notebook JSON body with an empty cell list. -/
def cNbJson : JsonVal := .obj [("cells", .arr [])]

/-- A burst request with no backup id. -/
def rq0 : BackupRequest := ⟨.plain "c0", false, none⟩

/-- A burst request carrying an explicit backup id `b`. -/
def rqB : BackupRequest := ⟨.plain "c1", false, some "b"⟩

/-- Two more plain burst requests. -/
def rq1 : BackupRequest := ⟨.plain "c1", false, none⟩

def rq2 : BackupRequest := ⟨.plain "c2", false, none⟩

/-- A file system holding a hot-exit record whose envelope carries
`lastModifiedTimeMs = 0` for key `k`, while the real file has been modified
at time 5. -/
def fsStale : FileSys :=
  ⟨[ ("gs/k.ipynb",
      ⟨.json (.obj [("contents", .str (.plain "dirty")), ("lastModifiedTimeMs", .num 0)]), 0⟩)
   , ("nb.ipynb", ⟨.plain "disk", 5⟩) ]⟩

/-- A file system with a fresh (nonzero) but outdated record for key `k` and
a real file modified later, at time 9. -/
def fsStaleW : FileSys :=
  ⟨[ ("gs/k.ipynb",
      ⟨.json (.obj [("contents", .str (.plain "hot")), ("lastModifiedTimeMs", .num 3)]), 0⟩)
   , ("nb.ipynb", ⟨.plain "disk", 9⟩) ]⟩

/-- A stale legacy global store entry for key `k` (captured at time 2). -/
def gStaleW : Memento :=
  [("k", .obj [("contents", .str (.plain "g")), ("lastModifiedTimeMs", .num 2)])]

/-- A world whose file system holds the notebook file and a viable backup
record under the explicit backup id `backup-1`. -/
def wBug : World :=
  ⟨⟨[ ("nb.ipynb", ⟨.json cNbJson, 1⟩)
    , ("gs/backup-1.ipynb", ⟨mkEnvelope (.json cNbJson) 5, 0⟩) ]⟩, [], []⟩

/-- An entirely empty world: reading the notebook file fails. -/
def wEmpty : World := ⟨⟨[]⟩, [], []⟩

/-- A world whose only content is the on-disk notebook with zero cells. -/
def wZeroCells : World := ⟨⟨[("nb.ipynb", ⟨.json cNbJson, 1⟩)]⟩, [], []⟩

/-- A legacy global store entry for key `k` that is truthy but carries no
contents, and a workspace store entry for the same key. -/
def gNoContents : Memento := [("k", .num 5)]

def lWorkEntry : Memento := [("k", .str (.plain "w"))]

/-- A world with a dirty hot-exit record under the static key and the real
notebook file saved earlier than the record was captured. -/
def wDirty : World :=
  ⟨⟨[ ("nb.ipynb", ⟨.plain "disk", 1⟩)
    , ("gs/notebook-storage-file://nb.ipynb.ipynb", ⟨mkEnvelope (.json cNbJson) 5, 0⟩) ]⟩,
    [], []⟩

/-- A one-entry legacy global store owned by the storage-key prefix. -/
def gOwned : Memento := [("notebook-storage-w", JsonVal.num 7)]

/-! Helper lemmas about association-list lookup, the memento operations, and
the file-system operations. -/

theorem lookup_filter_keyTrue {β : Type} (k : String) (pred : String × β → Bool)
    (h : ∀ v, pred (k, v) = true) (l : List (String × β)) :
    List.lookup k (l.filter pred) = List.lookup k l := by
  induction l with
  | nil => rfl
  | cons a l ih =>
    obtain ⟨a1, a2⟩ := a
    by_cases hk : k = a1
    · subst hk
      rw [List.filter_cons]
      simp [h a2, List.lookup]
    · have hbeq : (k == a1) = false := by simp [hk]
      rw [List.filter_cons]
      cases hp : pred (a1, a2) <;> simp [List.lookup, hbeq, ih]

theorem lookup_filter_keyFalse {β : Type} (k : String) (pred : String × β → Bool)
    (h : ∀ v, pred (k, v) = false) (l : List (String × β)) :
    List.lookup k (l.filter pred) = none := by
  induction l with
  | nil => rfl
  | cons a l ih =>
    obtain ⟨a1, a2⟩ := a
    by_cases hk : k = a1
    · subst hk
      rw [List.filter_cons]
      simp [h a2, ih]
    · have hbeq : (k == a1) = false := by simp [hk]
      rw [List.filter_cons]
      cases hp : pred (a1, a2) <;> simp [List.lookup, hbeq, ih]

theorem any_false_lookup_none {β : Type} {l : List (String × β)} {k : String}
    (h : l.any (fun kv => kv.1 == k) = false) : List.lookup k l = none := by
  induction l with
  | nil => rfl
  | cons a l ih =>
    simp only [List.any_cons, Bool.or_eq_false_iff] at h
    have hbeq : (k == a.1) = false := by
      cases hb : (a.1 == k) <;> simp_all [BEq.comm]
    simp [List.lookup, hbeq, ih h.2]

theorem lookup_map_replace_any_true {β : Type} {l : List (String × β)} {k : String}
    (x : β) (h : l.any (fun kv => kv.1 == k) = true) :
    List.lookup k (l.map fun kv => if kv.1 == k then (k, x) else kv) = some x := by
  induction l with
  | nil => simp at h
  | cons a l ih =>
    simp only [List.any_cons, Bool.or_eq_true] at h
    obtain ⟨a1, a2⟩ := a
    by_cases hk : a1 = k
    · have hb : ((a1, a2).1 == k) = true := by simp [hk]
      simp only [List.map_cons]
      rw [if_pos hb]
      simp [List.lookup]
    · have hb : ((a1, a2).1 == k) = true → False := by simp [hk]
      have hbeq : (k == a1) = false := by simp [Ne.symm hk]
      have h2 : l.any (fun kv => kv.1 == k) = true := by
        rcases h with h | h
        · exact absurd h hb
        · exact h
      simp only [List.map_cons]
      rw [if_neg hb]
      simp only [List.lookup, hbeq]
      exact ih h2

theorem mementoGet_update_some_self (m : Memento) (k : String) (x : JsonVal) :
    mementoGet (mementoUpdate m k (some x)) k = some x := by
  by_cases h : m.any (fun kv => kv.1 == k) = true
  · simpa [mementoGet, mementoUpdate, h] using lookup_map_replace_any_true x h
  · have hf : m.any (fun kv => kv.1 == k) = false := by
      cases hx : m.any (fun kv => kv.1 == k)
      · rfl
      · exact absurd hx h
    simp only [mementoGet, mementoUpdate, hf, Bool.false_eq_true, if_false,
      List.lookup_append, any_false_lookup_none hf]
    simp [List.lookup]

theorem mementoGet_update_none_self (m : Memento) (k : String) :
    mementoGet (mementoUpdate m k none) k = none := by
  unfold mementoUpdate
  exact lookup_filter_keyFalse k _ (fun v => by simp) m

theorem mem_update_some (m : Memento) (k : String) (x : JsonVal) :
    (k, x) ∈ mementoUpdate m k (some x) := by
  by_cases h : m.any (fun kv => kv.1 == k) = true
  · simp only [List.any_eq_true] at h
    obtain ⟨kv, hmem, hkv⟩ := h
    simp only [mementoUpdate, List.any_eq_true]
    rw [if_pos ⟨kv, hmem, hkv⟩]
    simp only [List.mem_map]
    exact ⟨kv, hmem, by simp [hkv]⟩
  · simp only [mementoUpdate]
    rw [if_neg h]
    simp

theorem update_some_key_pairs (m : Memento) (k : String) (x : JsonVal) :
    ∀ kv ∈ mementoUpdate m k (some x), kv.1 = k → kv = (k, x) := by
  by_cases h : m.any (fun kv => kv.1 == k) = true
  · intro kv hkv hk
    simp only [mementoUpdate, List.any_eq_true] at hkv
    rw [if_pos (by simpa [List.any_eq_true] using h)] at hkv
    simp only [List.mem_map] at hkv
    obtain ⟨kv0, _, hkv0⟩ := hkv
    by_cases hb : kv0.1 = k
    · simp only [hb, beq_self_eq_true, if_true] at hkv0
      exact hkv0.symm
    · have : (kv0.1 == k) = false := by simp [hb]
      simp only [this, Bool.false_eq_true, if_false] at hkv0
      rw [← hkv0] at hk
      exact absurd hk hb
  · intro kv hkv hk
    simp only [mementoUpdate] at hkv
    rw [if_neg h] at hkv
    rcases List.mem_append.mp hkv with hmem | hmem
    · exfalso
      exact h (by simp only [List.any_eq_true]; exact ⟨kv, hmem, by simp [hk]⟩)
    · simpa using hmem

theorem fsReadFile_write_self (fs : FileSys) (p : String) (c : RawText) (t : Nat) :
    fsReadFile (fsWriteFile fs p c t) p = some c := by
  simp [fsReadFile, fsWriteFile, List.lookup]

theorem lookup_none_filter_id {β : Type} {l : List (String × β)} {p : String}
    (h : List.lookup p l = none) : l.filter (fun kv => kv.1 ≠ p) = l := by
  induction l with
  | nil => rfl
  | cons a l ih =>
    obtain ⟨a1, a2⟩ := a
    by_cases hk : p = a1
    · subst hk; simp [List.lookup] at h
    · have hbeq : (p == a1) = false := by simp [hk]
      simp only [List.lookup, hbeq] at h
      rw [List.filter_cons]
      simp only [decide_eq_true_eq]
      rw [if_pos (Ne.symm hk), ih h]

theorem fsDeleteFile_missing (fs : FileSys) (p : String)
    (h : fsReadFile fs p = none) : fsDeleteFile fs p = fs := by
  unfold fsDeleteFile
  unfold fsReadFile at h
  have hl : List.lookup p fs.files = none := by
    cases hx : List.lookup p fs.files <;> simp [hx] at h ⊢
  rw [lookup_none_filter_id hl]

theorem removeLoop_filter (ks : List String) (m : Memento) :
    ks.foldl (fun acc k => if strStartsWith k KeyPrefixStr then mementoUpdate acc k none else acc) m
      = m.filter (fun kv => !(ks.contains kv.1 && strStartsWith kv.1 KeyPrefixStr)) := by
  induction ks generalizing m with
  | nil => simp
  | cons k ks ih =>
    rw [List.foldl_cons]
    by_cases hs : strStartsWith k KeyPrefixStr = true
    · rw [if_pos hs, ih]
      show (m.filter _).filter _ = _
      rw [List.filter_filter]
      apply List.filter_congr
      intro kv _
      by_cases hk : kv.1 = k
      · simp [hk, hs]
      · simp [hk]
    · rw [if_neg hs, ih]
      apply List.filter_congr
      intro kv _
      have hs' : strStartsWith k KeyPrefixStr = false := by
        cases hx : strStartsWith k KeyPrefixStr
        · rfl
        · exact absurd hx hs
      by_cases hk : kv.1 = k
      · simp [hk, hs']
      · simp [hk]

theorem transferStorage_filter (g : Memento) :
    transferStorage g
      = (mementoUpdate g NotebookTransferKey (some (.bool true))).filter
          (fun kv => !(strStartsWith kv.1 KeyPrefixStr)) := by
  unfold transferStorage
  rw [removeLoop_filter]
  apply List.filter_congr
  intro kv hmem
  have hc : kv.1 ∈ (mementoUpdate g NotebookTransferKey (some (.bool true))).map
      (fun kv => kv.1) := List.mem_map.mpr ⟨kv, hmem, rfl⟩
  simp [hc]

theorem transferKey_no_keyStart : strStartsWith NotebookTransferKey KeyPrefixStr = false := by
  decide

theorem transferStorage_flag (g : Memento) :
    mementoGet (transferStorage g) NotebookTransferKey = some (.bool true) := by
  rw [transferStorage_filter]
  unfold mementoGet
  rw [lookup_filter_keyTrue _ _ (fun v => by simp [transferKey_no_keyStart])]
  exact mementoGet_update_some_self g _ _

theorem transferStorage_removes (g : Memento) (k : String)
    (h : strStartsWith k KeyPrefixStr = true) :
    mementoGet (transferStorage g) k = none := by
  rw [transferStorage_filter]
  exact lookup_filter_keyFalse k _ (fun v => by simp [h]) _

theorem mem_transferStorage_flagPair (g : Memento) :
    (NotebookTransferKey, JsonVal.bool true) ∈ transferStorage g := by
  rw [transferStorage_filter]
  exact List.mem_filter.mpr ⟨mem_update_some g _ _, by simp [transferKey_no_keyStart]⟩

theorem update_transferStorage_id (g : Memento) :
    mementoUpdate (transferStorage g) NotebookTransferKey (some (.bool true))
      = transferStorage g := by
  have hany : (transferStorage g).any (fun kv => kv.1 == NotebookTransferKey) = true :=
    List.any_eq_true.mpr ⟨_, mem_transferStorage_flagPair g, by simp⟩
  unfold mementoUpdate
  dsimp only
  rw [if_pos hany]
  have hrepl : ∀ kv ∈ transferStorage g,
      (if kv.1 == NotebookTransferKey then (NotebookTransferKey, JsonVal.bool true) else kv)
        = kv := by
    intro kv hkv
    by_cases hk : kv.1 = NotebookTransferKey
    · have hkv2 : kv ∈ mementoUpdate g NotebookTransferKey (some (.bool true)) := by
        rw [transferStorage_filter] at hkv
        exact List.mem_of_mem_filter hkv
      have heq := update_some_key_pairs g NotebookTransferKey (.bool true) kv hkv2 hk
      rw [heq]
      simp
    · have hne : (kv.1 == NotebookTransferKey) = true → False := by simp [hk]
      rw [if_neg hne]
  have hmap := List.map_congr_left (g := id)
    (by intro kv hkv; exact hrepl kv hkv)
  simpa using hmap

theorem transferStorage_idem (g : Memento) :
    transferStorage (transferStorage g) = transferStorage g := by
  rw [transferStorage_filter (transferStorage g), update_transferStorage_id]
  conv_lhs => rw [transferStorage_filter g]
  rw [List.filter_filter]
  conv_rhs => rw [transferStorage_filter g]
  apply List.filter_congr
  intro kv _
  simp

theorem backupArrive_append_last (rs : List BackupRequest) (rL : BackupRequest)
    (s : CoordState) (h : s.backingUp = true) :
    (rs ++ [rL]).foldl backupArrive s
      = { s with backupRequested := some ⟨rL.content, rL.cancelled⟩ } := by
  induction rs generalizing s with
  | nil =>
    simp only [List.nil_append, List.foldl_cons, List.foldl_nil, backupArrive]
    rw [if_pos h]
  | cons r rs ih =>
    rw [List.cons_append, List.foldl_cons]
    have harr : backupArrive s r
        = { s with backupRequested := some ⟨r.content, r.cancelled⟩ } := by
      unfold backupArrive
      rw [if_pos h]
    rw [harr]
    exact ih _ h

theorem drainPending_of_none (env : Env) (file : Uri) (n : Nat) (s : CoordState)
    (h : s.backupRequested = none) : drainPending env file n s = s := by
  cases n with
  | zero => rfl
  | succ n => simp only [drainPending, h]

theorem countWrites_append (a b : List StorageOp) :
    countWrites (a ++ b) = countWrites a + countWrites b := by
  simp [countWrites, List.filter_append]

theorem countWrites_writeToStorage_le_one (fs : FileSys) (clock : Nat) (p : String)
    (c : Option RawText) (canc : Bool) :
    countWrites (writeToStorage fs clock p c canc).2 ≤ 1 := by
  unfold writeToStorage
  split
  · simp [countWrites]
  · split
    · split
      · simp [countWrites, StorageOp.isWrite, List.filter]
      · simp [countWrites, StorageOp.isWrite, List.filter]
    · simp [countWrites, StorageOp.isWrite, List.filter]

theorem countWrites_store_le_one (env : Env) (fs : FileSys) (clock : Nat)
    (content : RawText) (file : Uri) (canc : Bool) (bid : Option String) :
    countWrites (storeContentsInHotExitFile env fs clock content file canc bid).2 ≤ 1 := by
  unfold storeContentsInHotExitFile
  exact countWrites_writeToStorage_le_one _ _ _ _ _

theorem factoryCreateModel_cells_ne_nil (env : Env) (f : ModelFields) :
    (factoryCreateModel env f).cells ≠ [] := by
  unfold factoryCreateModel
  dsimp only
  by_cases h : f.cells.isEmpty = true
  · rw [if_pos h]
    simp
  · rw [if_neg h]
    simpa [List.isEmpty_iff] using h

theorem loadContents_ok_cells_ne_nil (env : Env) (file : Uri)
    (contents : Option RawText) (d : Bool) (t : Option RawText) (m : NotebookModel)
    (h : loadContents env file contents d t = .ok m) : m.cells ≠ [] := by
  unfold loadContents at h
  cases hp : parseContentsStep contents with
  | error e =>
    simp only [hp] at h
    exact Except.noConfusion h
  | ok json =>
    simp only [hp] at h
    by_cases hc : (optTruthy json && !optTruthy (optGetField json "cells")) = true
    · rw [if_pos hc] at h
      cases h
    · rw [if_neg hc] at h
      cases hcs : cellsStep json with
      | error e =>
        simp only [hcs] at h
        exact Except.noConfusion h
      | ok cells =>
        simp only [hcs] at h
        have hm := Except.ok.inj h
        rw [← hm]
        exact factoryCreateModel_cells_ne_nil env _

theorem loadFromFileCore_ok_cells_ne_nil (env : Env) (w : World) (file : Uri)
    (pc : Option RawText) (opts : LoadOptions) (m : NotebookModel) (w' : World)
    (h : loadFromFileCore env w file pc opts = (.ok m, w')) : m.cells ≠ [] := by
  unfold loadFromFileCore at h
  cases hr : readStep w file pc with
  | error e =>
    simp only [hr] at h
    exact Except.noConfusion (congrArg Prod.fst h)
  | ok contents =>
    simp only [hr] at h
    by_cases hd : optTruthyText
        (if optionsSkipDirty opts then
          (none, (if optionsSkipDirty opts then
            { w with fs := (clearHotExit env w.fs file (optionsBackupId file opts)).1 }
          else w).glob,
          (if optionsSkipDirty opts then
            { w with fs := (clearHotExit env w.fs file (optionsBackupId file opts)).1 }
          else w).work)
        else
          getStoredContents env
            (if optionsSkipDirty opts then
              { w with fs := (clearHotExit env w.fs file (optionsBackupId file opts)).1 }
            else w).fs
            (if optionsSkipDirty opts then
              { w with fs := (clearHotExit env w.fs file (optionsBackupId file opts)).1 }
            else w).glob
            (if optionsSkipDirty opts then
              { w with fs := (clearHotExit env w.fs file (optionsBackupId file opts)).1 }
            else w).work
            file (optionsBackupId file opts)).1 = true
    · rw [if_pos hd] at h
      have h1 : loadContents env file _ true contents = Except.ok m :=
        congrArg Prod.fst h
      exact loadContents_ok_cells_ne_nil _ _ _ _ _ _ h1
    · rw [if_neg hd] at h
      have h1 : loadContents env file contents false none = Except.ok m :=
        congrArg Prod.fst h
      exact loadContents_ok_cells_ne_nil _ _ _ _ _ _ h1

theorem loadFromFile_cells_ne_nil (env : Env) (w : World) (file : Uri)
    (pc : Option RawText) (opts : LoadOptions) :
    (loadFromFile env w file pc opts).1.cells ≠ [] := by
  unfold loadFromFile
  cases hc : loadFromFileCore env w file pc opts with
  | mk r w' =>
    cases r with
    | ok m => exact loadFromFileCore_ok_cells_ne_nil env w file pc opts m w' hc
    | error e =>
      dsimp only
      exact factoryCreateModel_cells_ne_nil env _

theorem truthy_of_getField {v : JsonVal} {k : String} {x : JsonVal}
    (h : v.getField k = some x) : v.truthy = true := by
  cases v <;> simp [JsonVal.getField, JsonVal.truthy] at h ⊢

theorem loadContents_eval (env : Env) (file : Uri) (r : RawText) (dj : JsonVal)
    (cs : List JsonVal) (d : Bool) (t : Option RawText)
    (hrt : r.truthyText = true) (hr : parseJson r = some dj)
    (hcs : dj.getField "cells" = some (.arr cs)) :
    loadContents env file (some r) d t
      = .ok (factoryCreateModel env
          { trusted :=
              if isUntitledFile file then true
              else env.isNotebookTrusted file.asString
                ((if d && t.isSome then t else some r).getD (.plain ""))
          , file := file
          , cells := remapCells env cs
          , notebookJson := some dj
          , indentAmount := some (env.detectIndent r)
          , pythonNumber := extractPythonMainVersion env dj
          , initiallyDirty := d }) := by
  have hdj : dj.truthy = true := truthy_of_getField hcs
  have h1 : parseContentsStep (some r) = .ok (some dj) := by
    simp [parseContentsStep, hrt, hr]
  have h3 : optTruthy (optGetField (some dj) "cells") = true := by
    simp [optGetField, hcs, optTruthy, JsonVal.truthy]
  have h2 : cellsStep (some dj) = .ok cs := by
    unfold cellsStep
    simp only [optTruthy, hdj, if_true, optGetField, Option.bind, hcs]
  have hcond : (optTruthy (some dj) && !optTruthy (optGetField (some dj) "cells"))
      = false := by
    rw [h3]
    simp
  unfold loadContents
  simp only [h1, hcond, Bool.false_eq_true, if_false, h2]
  simp only [optTruthyText, hrt, if_true, Option.map_some', optTruthy, hdj,
    Option.getD_some, Option.isNone_some, Bool.false_or]

theorem loadFromFileCore_noskip (env : Env) (w : World) (file : Uri)
    (pc : Option RawText) (opts : LoadOptions) (contents : RawText)
    (hu : isUntitledFile file = false)
    (hread : fsReadFile w.fs file.fsPath = some contents)
    (hskip : optionsSkipDirty opts = false) :
    loadFromFileCore env w file pc opts
      = (let q := getStoredContents env w.fs w.glob w.work file (optionsBackupId file opts)
         let w2 : World := { w with glob := q.2.1, work := q.2.2 }
         if optTruthyText q.1 then (loadContents env file q.1 true (some contents), w2)
         else (loadContents env file (some contents) false none, w2)) := by
  unfold loadFromFileCore readStep
  rw [hu]
  simp only [Bool.false_eq_true, if_false, hread, hskip]

theorem tier2_hit_sweeps (fs : FileSys) (g : Memento) (file : Uri) (key : String) :
    optTruthyText (getStoredContentsFromGlobalStorage fs g file key).1 = true →
    (getStoredContentsFromGlobalStorage fs g file key).2 = transferStorage g := by
  unfold getStoredContentsFromGlobalStorage
  cases hd : optTruthy (mementoGet g key) with
  | true =>
    intro _
    simp only [hd, if_true]
    split
    · split
      · rfl
      · split <;> rfl
    · rfl
  | false =>
    intro h
    exfalso
    simp [hd, Bool.false_eq_true, if_false, readEnvelopeContents, optTruthyText] at h

theorem tier3_hit_consumes (l : Memento) (key : String) :
    optTruthyText (getStoredContentsFromLocalStorage l key).1 = true →
    mementoGet (getStoredContentsFromLocalStorage l key).2 key = none := by
  unfold getStoredContentsFromLocalStorage
  cases hv : mementoGet l key with
  | none =>
    intro h
    simp [optTruthyText] at h
  | some v =>
    cases ht : v.truthy with
    | true =>
      intro _
      simp only [ht, if_true]
      exact mementoGet_update_none_self l key
    | false =>
      intro h
      exfalso
      simp [ht, Bool.false_eq_true, if_false, optTruthyText] at h

theorem store_truthy_eval (env : Env) (fs : FileSys) (clock : Nat) (c : RawText)
    (file : Uri) (hc : c.truthyText = true) :
    storeContentsInHotExitFile env fs clock c file false none
      = (fsWriteFile fs (getHashedFileName env (getStaticStorageKey file))
           (mkEnvelope c clock) clock,
         [.createDir (dirname (getHashedFileName env (getStaticStorageKey file))),
          .write (getHashedFileName env (getStaticStorageKey file)) (mkEnvelope c clock)]) := by
  unfold storeContentsInHotExitFile writeToStorage
  have henv : (mkEnvelope c clock).truthyText = true := rfl
  simp [jsOr, hc, henv]

theorem runBurst_eval (env : Env) (file : Uri) (r0 rL : BackupRequest)
    (rs : List BackupRequest) (fs0 : FileSys) :
    runBurst env file r0 (rs ++ [rL]) fs0
      = { backingUp := false
        , backupRequested := none
        , fs := (storeContentsInHotExitFile env
            (storeContentsInHotExitFile env fs0 0 r0.content file r0.cancelled r0.backupId).1
            1 rL.content file rL.cancelled none).1
        , clock := 2
        , trace := (storeContentsInHotExitFile env fs0 0 r0.content file
              r0.cancelled r0.backupId).2
            ++ (storeContentsInHotExitFile env
                (storeContentsInHotExitFile env fs0 0 r0.content file
                  r0.cancelled r0.backupId).1
                1 rL.content file rL.cancelled none).2 } := by
  have hstep : ∀ (s : CoordState) (p : PendingRequest) (n : Nat),
      s.backupRequested = some p →
      drainPending env file (n + 1) s
        = drainPending env file n
            (completeFlight env file ⟨p.content, p.cancelled, none⟩
              { s with backupRequested := none, backingUp := true }) := by
    intro s p n hp
    simp only [drainPending, hp]
  unfold runBurst
  dsimp only
  rw [backupArrive_append_last rs rL _ rfl]
  rw [hstep _ ⟨rL.content, rL.cancelled⟩ _ rfl]
  rw [drainPending_of_none _ _ _ _ rfl]
  unfold completeFlight
  rfl

/-! The claims. -/

/-- C9: the Migration Sweep (`transferStorage`) is idempotent: it sets the
persisted migration-ran flag to true, removes every legacy global-store entry
whose key starts with the storage-key prefix, and running it a second time in
a row removes no entries, raises no error (it is a total function), and
leaves the flag true — the second run returns the identical store. -/
theorem claim_C9_migration_idempotent (g : Memento) :
    mementoGet (transferStorage g) NotebookTransferKey = some (.bool true)
    ∧ (∀ k, strStartsWith k KeyPrefixStr = true → mementoGet (transferStorage g) k = none)
    ∧ transferStorage (transferStorage g) = transferStorage g :=
  ⟨transferStorage_flag g, fun k hk => transferStorage_removes g k hk, transferStorage_idem g⟩

/-- Witness for C9 at a concrete one-entry store and a concrete prefixed
key. -/
theorem claim_C9_witness :
    strStartsWith "notebook-storage-w" KeyPrefixStr = true
    ∧ mementoGet (transferStorage gOwned) "notebook-storage-w" = none
    ∧ mementoGet (transferStorage gOwned) NotebookTransferKey = some (.bool true) :=
  ⟨by decide,
   (claim_C9_migration_idempotent gOwned).2.1 "notebook-storage-w" (by decide),
   (claim_C9_migration_idempotent gOwned).1⟩

/-- C10: backing up a model whose serialized content is the empty string
(falsy) behaves exactly as a backup-clear for the computed key: no envelope
is written, the Backup Record is deleted, and a missing record is success —
the resulting state is the same file system the record was absent from. -/
theorem claim_C10_empty_content_clears (env : Env) (fs : FileSys) (clock : Nat)
    (file : Uri) (bid : Option String) (content : RawText)
    (hc : content.truthyText = false) :
    storeContentsInHotExitFile env fs clock content file false bid
      = clearHotExit env fs file bid
    ∧ (storeContentsInHotExitFile env fs clock content file false bid).2
      = [StorageOp.delete (getHashedFileName env (jsOr bid (getStaticStorageKey file)))]
    ∧ (fsReadFile fs (getHashedFileName env (jsOr bid (getStaticStorageKey file))) = none →
        (storeContentsInHotExitFile env fs clock content file false bid).1 = fs) := by
  refine ⟨?_, ?_, ?_⟩
  · unfold storeContentsInHotExitFile clearHotExit
    simp only [hc, Bool.false_eq_true, if_false]
    rfl
  · unfold storeContentsInHotExitFile
    simp only [hc, Bool.false_eq_true, if_false]
    rfl
  · intro h
    unfold storeContentsInHotExitFile
    simp only [hc, Bool.false_eq_true, if_false]
    exact fsDeleteFile_missing fs _ h

/-- Witness for C10 with the literal empty string as serialized content. -/
theorem claim_C10_witness :
    (RawText.plain "").truthyText = false
    ∧ storeContentsInHotExitFile cEnv ⟨[]⟩ 4 (.plain "") cFile false none
        = clearHotExit cEnv ⟨[]⟩ cFile none :=
  ⟨by decide,
   (claim_C10_empty_content_clears cEnv ⟨[]⟩ 4 cFile none (.plain "") (by decide)).1⟩

/-- C5: `loadFromFile` is total (nothing escapes its `try`/`catch`): whenever
the body fails — file-read error, JSON parse error, or parsed content lacking
a cell list, the cases of `LoadError` — the returned model is the fresh
trusted fallback for the identity with exactly one synthesized empty cell. -/
theorem claim_C5_fallback (env : Env) (w : World) (file : Uri)
    (pc : Option RawText) (opts : LoadOptions) (e : LoadError) (w' : World)
    (h : loadFromFileCore env w file pc opts = (.error e, w')) :
    (loadFromFile env w file pc opts).1.trusted = true
    ∧ (loadFromFile env w file pc opts).1.cells = [createEmptyCell env.uuid]
    ∧ (loadFromFile env w file pc opts).1.file = file
    ∧ (loadFromFile env w file pc opts).2 = w' := by
  unfold loadFromFile
  simp only [h]
  simp [fallbackModel, factoryCreateModel]

/-- Witness for C5: loading a missing file from an empty world fails inside
and yields the trusted single-cell fallback. -/
theorem claim_C5_witness :
    loadFromFileCore cEnv wEmpty cFile none LoadOptions.undef
      = (.error .fileNotFound, wEmpty)
    ∧ (loadFromFile cEnv wEmpty cFile none LoadOptions.undef).1.trusted = true
    ∧ (loadFromFile cEnv wEmpty cFile none LoadOptions.undef).1.cells
        = [createEmptyCell cEnv.uuid] :=
  ⟨rfl,
   (claim_C5_fallback cEnv wEmpty cFile none LoadOptions.undef .fileNotFound wEmpty rfl).1,
   (claim_C5_fallback cEnv wEmpty cFile none LoadOptions.undef .fileNotFound wEmpty rfl).2.1⟩

/-- C6: every model produced by `loadFromFile` has a non-empty cell
sequence; in particular, loading a document with no dirty hot-exit content
whose on-disk content parses to zero cells synthesizes exactly one empty
code cell carrying the uuid generator's fresh identifier. -/
theorem claim_C6_nonempty_cells (env : Env) (w : World) (file : Uri)
    (pc : Option RawText) (opts : LoadOptions) (dj : JsonVal)
    (hu : isUntitledFile file = false)
    (hskip : optionsSkipDirty opts = false)
    (hread : fsReadFile w.fs file.fsPath = some (.json dj))
    (hq : optTruthyText
        (getStoredContents env w.fs w.glob w.work file (optionsBackupId file opts)).1
      = false)
    (hcells : dj.getField "cells" = some (.arr [])) :
    (∀ (env' : Env) (w' : World) (file' : Uri) (pc' : Option RawText)
        (opts' : LoadOptions),
      (loadFromFile env' w' file' pc' opts').1.cells ≠ [])
    ∧ (loadFromFile env w file pc opts).1.cells = [createEmptyCell env.uuid] := by
  constructor
  · intro env' w' file' pc' opts'
    exact loadFromFile_cells_ne_nil env' w' file' pc' opts'
  · have hcore := loadFromFileCore_noskip env w file pc opts (.json dj) hu hread hskip
    have hlc := loadContents_eval env file (.json dj) dj [] false none rfl rfl hcells
    unfold loadFromFile
    rw [hcore]
    simp only [hq, Bool.false_eq_true, if_false]
    simp only [hlc]
    simp [factoryCreateModel, remapCells]

/-- Witness for C6: the zero-cells world yields exactly the synthesized
cell. -/
theorem claim_C6_witness :
    optionsSkipDirty LoadOptions.undef = false
    ∧ (loadFromFile cEnv wZeroCells cFile none LoadOptions.undef).1.cells
        = [createEmptyCell cEnv.uuid] :=
  ⟨rfl,
   (claim_C6_nonempty_cells cEnv wZeroCells cFile none LoadOptions.undef cNbJson
      rfl rfl rfl rfl rfl).2⟩

/-- C8: a load that finds dirty hot-exit content for a non-untitled document
marks the resulting model dirty, and its trust flag is the trust verifier's
verdict on the on-disk file content — not on the dirty content. -/
theorem claim_C8_dirty_trust (env : Env) (w : World) (file : Uri)
    (pc : Option RawText) (opts : LoadOptions) (onDisk dc : RawText)
    (dj : JsonVal) (cs : List JsonVal) (g' l' : Memento)
    (hu : isUntitledFile file = false)
    (hskip : optionsSkipDirty opts = false)
    (hread : fsReadFile w.fs file.fsPath = some onDisk)
    (hq : getStoredContents env w.fs w.glob w.work file (optionsBackupId file opts)
        = (some dc, g', l'))
    (hdc : dc.truthyText = true)
    (hparse : parseJson dc = some dj)
    (hcells : dj.getField "cells" = some (.arr cs)) :
    (loadFromFile env w file pc opts).1.initiallyDirty = true
    ∧ (loadFromFile env w file pc opts).1.trusted
        = env.isNotebookTrusted file.asString onDisk := by
  have hcore := loadFromFileCore_noskip env w file pc opts onDisk hu hread hskip
  have hlc := loadContents_eval env file dc dj cs true (some onDisk) hdc hparse hcells
  unfold loadFromFile
  rw [hcore]
  simp only [hq, optTruthyText, hdc, if_true]
  simp only [hlc]
  constructor
  · simp [factoryCreateModel]
  · simp [factoryCreateModel, hu]

/-- Witness for C8: the dirty world's load is dirty and trust is checked on
the on-disk text `disk`, not the recovered notebook text. -/
theorem claim_C8_witness :
    getStoredContents cEnv wDirty.fs wDirty.glob wDirty.work cFile
        (optionsBackupId cFile LoadOptions.undef)
      = (some (.json cNbJson), [], [])
    ∧ (loadFromFile cEnv wDirty cFile none LoadOptions.undef).1.initiallyDirty = true
    ∧ (loadFromFile cEnv wDirty cFile none LoadOptions.undef).1.trusted
        = cEnv.isNotebookTrusted cFile.asString (.plain "disk") :=
  ⟨rfl,
   (claim_C8_dirty_trust cEnv wDirty cFile none LoadOptions.undef (.plain "disk")
      (.json cNbJson) cNbJson [] [] [] rfl rfl rfl rfl rfl rfl rfl).1,
   (claim_C8_dirty_trust cEnv wDirty cFile none LoadOptions.undef (.plain "disk")
      (.json cNbJson) cNbJson [] [] [] rfl rfl rfl rfl rfl rfl rfl).2⟩

/-- C7: the dirty-content query searches the three storage tiers in strict
precedence order — content-addressed file store, then legacy global store,
then legacy workspace store — returning the first (truthy) hit; a hit in the
legacy global store has triggered the Migration Sweep before returning; a hit
in the legacy workspace store is cleared immediately upon read, so the entry
is never returned by two queries; and when the first two tiers miss, the
query's result and final stores are exactly the third tier's. -/
theorem claim_C7_tier_precedence (env : Env) (fs : FileSys) (g l : Memento)
    (file : Uri) (bid : Option String) (key : String)
    (t1 : Option RawText) (t2 t3 : Option RawText × Memento)
    (hkey : key = jsOr bid (getStaticStorageKey file))
    (h1 : t1 = getStoredContentsFromFile env fs file key)
    (h2 : t2 = getStoredContentsFromGlobalStorage fs g file key)
    (h3 : t3 = getStoredContentsFromLocalStorage l key) :
    (getStoredContents env fs g l file bid).1
      = (if optTruthyText t1 then t1 else if optTruthyText t2.1 then t2.1 else t3.1)
    ∧ (optTruthyText t2.1 = true → t2.2 = transferStorage g)
    ∧ (optTruthyText t3.1 = true → mementoGet t3.2 key = none)
    ∧ (optTruthyText t1 = false → optTruthyText t2.1 = false →
        getStoredContents env fs g l file bid = (t3.1, t2.2, t3.2)) := by
  subst hkey
  subst h1
  subst h2
  subst h3
  refine ⟨?_, tier2_hit_sweeps fs g file _, tier3_hit_consumes l _, ?_⟩
  · unfold getStoredContents
    cases hc1 : optTruthyText
        (getStoredContentsFromFile env fs file (jsOr bid (getStaticStorageKey file))) with
    | true => simp only [hc1, if_true]
    | false =>
      simp only [hc1, Bool.false_eq_true, if_false]
      cases hc2 : optTruthyText
          (getStoredContentsFromGlobalStorage fs g file
            (jsOr bid (getStaticStorageKey file))).1 with
      | true => simp only [hc2, if_true]
      | false => simp only [hc2, Bool.false_eq_true, if_false]
  · intro hc1 hc2
    unfold getStoredContents
    simp only [hc1, hc2, Bool.false_eq_true, if_false]

/-- Witness for C7: tier 1 is empty, tier 2 holds truthy data without
contents (so it misses but the sweep has run), tier 3 holds the entry; the
query returns the workspace entry and consumes it. -/
theorem claim_C7_witness :
    (getStoredContents cEnv ⟨[]⟩ gNoContents lWorkEntry cFile (some "k")).1
      = some (.plain "w")
    ∧ mementoGet (getStoredContentsFromLocalStorage lWorkEntry "k").2 "k" = none
    ∧ getStoredContents cEnv ⟨[]⟩ gNoContents lWorkEntry cFile (some "k")
        = ((getStoredContentsFromLocalStorage lWorkEntry "k").1,
           (getStoredContentsFromGlobalStorage ⟨[]⟩ gNoContents cFile "k").2,
           (getStoredContentsFromLocalStorage lWorkEntry "k").2)
    ∧ (getStoredContentsFromGlobalStorage ⟨[]⟩ gNoContents cFile "k").2
        = transferStorage gNoContents := by
  have h := claim_C7_tier_precedence cEnv ⟨[]⟩ gNoContents lWorkEntry cFile (some "k") "k"
    (getStoredContentsFromFile cEnv ⟨[]⟩ cFile "k")
    (getStoredContentsFromGlobalStorage ⟨[]⟩ gNoContents cFile "k")
    (getStoredContentsFromLocalStorage lWorkEntry "k") rfl rfl rfl rfl
  refine ⟨?_, h.2.2.1 rfl, h.2.2.2 rfl rfl, rfl⟩
  rw [h.1]
  rfl

/-- C3 (amended): for a stored record carrying a truthy (nonzero)
`lastModifiedTimeMs = T`, for a `file`-scheme identity resolving to a real
filesystem entry whose modification time is strictly greater than `T`, the
stored backup is ignored — in both the content-addressed file store and the
legacy global store.  (The claim as stated over every `T` fails at `T = 0`,
which is falsy and skips the staleness check; see the counterexample.) -/
theorem claim_C3_staleness_nonzero (env : Env) (fs : FileSys) (g : Memento)
    (file : Uri) (key : String) (raw : RawText) (dataF dataG : JsonVal)
    (tF tG mtime : Nat)
    (hscheme : file.scheme = "file")
    (hstat : fsStat fs file.fsPath = some mtime) :
    (fsReadFile fs (getHashedFileName env key) = some raw →
     parseJson raw = some dataF →
     dataF.getField "lastModifiedTimeMs" = some (.num tF) →
     tF ≠ 0 → mtime > tF →
     getStoredContentsFromFile env fs file key = none)
    ∧ (mementoGet g key = some dataG →
       dataG.getField "lastModifiedTimeMs" = some (.num tG) →
       tG ≠ 0 → mtime > tG →
       (getStoredContentsFromGlobalStorage fs g file key).1 = none) := by
  constructor
  · intro hread hparse hT hT0 hgt
    unfold getStoredContentsFromFile
    simp only [hread, hparse]
    have htr : dataF.truthy = true := truthy_of_getField hT
    have hcond : (dataF.truthy && optTruthy (dataF.getField "lastModifiedTimeMs")
        && (file.scheme == "file")) = true := by
      rw [htr, hT, hscheme]
      simp [optTruthy, JsonVal.truthy, hT0]
    rw [if_pos hcond]
    simp only [hstat]
    have hgt2 : jsGtNum mtime (dataF.getField "lastModifiedTimeMs") = true := by
      rw [hT]
      simp [jsGtNum, hgt]
    rw [if_pos hgt2]
  · intro hg hT hT0 hgt
    unfold getStoredContentsFromGlobalStorage
    simp only [hg]
    have htr : dataG.truthy = true := truthy_of_getField hT
    have hfield : optGetField (some dataG) "lastModifiedTimeMs" = some (.num tG) := by
      simp [optGetField, hT]
    have e1 : optTruthy (some dataG) = true := by
      simp only [optTruthy]
      exact htr
    have e2 : optTruthy (some (JsonVal.num tG)) = true := by
      simp [optTruthy, JsonVal.truthy, hT0]
    have hcond : (optTruthy (some dataG)
        && optTruthy (optGetField (some dataG) "lastModifiedTimeMs")
        && (file.scheme == "file")) = true := by
      rw [hfield, hscheme, e1, e2]
      simp
    rw [if_pos hcond]
    simp only [hstat]
    have hgt2 : jsGtNum mtime (optGetField (some dataG) "lastModifiedTimeMs") = true := by
      rw [hfield]
      simp [jsGtNum, hgt]
    rw [if_pos hgt2]

/-- Counterexample for C3 as stated: a stored record carrying
`lastModifiedTimeMs = 0` for a real file modified at time 5 (so the file's
modification time is strictly greater than `T = 0`) is NOT ignored — the
falsy timestamp skips the staleness check and the query returns the stored
contents instead of absent. -/
theorem claim_C3_counterexample :
    fsStat fsStale cFile.fsPath = some 5
    ∧ fsReadFile fsStale (getHashedFileName cEnv "k")
        = some (.json (.obj [("contents", .str (.plain "dirty")),
                             ("lastModifiedTimeMs", .num 0)]))
    ∧ (5 : Nat) > 0
    ∧ getStoredContentsFromFile cEnv fsStale cFile "k" = some (.plain "dirty")
    ∧ (getStoredContents cEnv fsStale [] [] cFile (some "k")).1 = some (.plain "dirty")
    ∧ ¬(getStoredContentsFromFile cEnv fsStale cFile "k" = none) := by
  refine ⟨rfl, rfl, by decide, rfl, rfl, ?_⟩
  intro hcontra
  exact Option.noConfusion
    ((rfl : (some (RawText.plain "dirty") : Option RawText)
        = getStoredContentsFromFile cEnv fsStale cFile "k").trans hcontra)

/-- Witness for the amended C3 at nonzero timestamps 3 (file store) and 2
(global store) against a file modified at time 9. -/
theorem claim_C3_witness :
    getStoredContentsFromFile cEnv fsStaleW cFile "k" = none
    ∧ (getStoredContentsFromGlobalStorage fsStaleW gStaleW cFile "k").1 = none := by
  have h := claim_C3_staleness_nonzero cEnv fsStaleW gStaleW cFile "k"
    (.json (.obj [("contents", .str (.plain "hot")), ("lastModifiedTimeMs", .num 3)]))
    (.obj [("contents", .str (.plain "hot")), ("lastModifiedTimeMs", .num 3)])
    (.obj [("contents", .str (.plain "g")), ("lastModifiedTimeMs", .num 2)])
    3 2 9 rfl rfl
  exact ⟨h.1 rfl rfl rfl (by decide) (by decide),
         h.2 rfl rfl (by decide) (by decide)⟩

/-- C4: the code violates the claim.  A non-empty string backup id in the
polymorphic option slot is truthy, so `skipDirtyContents = !!options` decodes
it as a skip: with a viable, retrievable backup record stored under
`backup-1` (second and third conjuncts), the load deletes that record and
returns a clean (non-dirty) model instead of querying the Storage Tier
Resolver with that backup id. -/
theorem claim_C4_string_backupId_skips :
    fsReadFile wBug.fs (getHashedFileName cEnv "backup-1")
      = some (mkEnvelope (.json cNbJson) 5)
    ∧ getStoredContentsFromFile cEnv wBug.fs cFile "backup-1" = some (.json cNbJson)
    ∧ optionsSkipDirty (LoadOptions.str "backup-1") = true
    ∧ optionsBackupId cFile (LoadOptions.str "backup-1") = some "backup-1"
    ∧ (loadFromFile cEnv wBug cFile none (LoadOptions.str "backup-1")).1.initiallyDirty
        = false
    ∧ fsReadFile (loadFromFile cEnv wBug cFile none (LoadOptions.str "backup-1")).2.fs
        (getHashedFileName cEnv "backup-1") = none := by
  exact ⟨rfl, rfl, by decide, rfl, rfl, rfl⟩

/-- C1: for a burst of requests arriving while one backup is in flight, each
new arrival replaces the previous pending request so exactly the last one
survives in the single pending slot; the whole burst performs at most two
writes (the in-flight one plus one coalesced final one); and the final
persisted record under the default storage key is the serialized envelope of
the last request's content. -/
theorem claim_C1_burst_coalescing (env : Env) (file : Uri) (r0 rL : BackupRequest)
    (rs : List BackupRequest) (fs0 : FileSys)
    (hcanc : rL.cancelled = false) (htr : rL.content.truthyText = true) :
    ((rs ++ [rL]).foldl backupArrive
        { backingUp := true, backupRequested := none, fs := fs0, clock := 0,
          trace := [] }).backupRequested
      = some ⟨rL.content, rL.cancelled⟩
    ∧ countWrites (runBurst env file r0 (rs ++ [rL]) fs0).trace ≤ 2
    ∧ fsReadFile (runBurst env file r0 (rs ++ [rL]) fs0).fs
        (getHashedFileName env (getStaticStorageKey file))
      = some (mkEnvelope rL.content 1) := by
  refine ⟨?_, ?_, ?_⟩
  · rw [backupArrive_append_last rs rL _ rfl]
  · rw [runBurst_eval]
    dsimp only
    rw [countWrites_append]
    have h0 := countWrites_store_le_one env fs0 0 r0.content file r0.cancelled r0.backupId
    have h1 := countWrites_store_le_one env
      (storeContentsInHotExitFile env fs0 0 r0.content file r0.cancelled r0.backupId).1
      1 rL.content file rL.cancelled none
    omega
  · rw [runBurst_eval]
    dsimp only
    rw [hcanc, store_truthy_eval env _ 1 rL.content file htr]
    exact fsReadFile_write_self _ _ _ _

/-- Witness for C1: a burst of two arrivals (`c1` then `c2`) over an
in-flight backup of `c0`; the persisted record holds `c2`'s envelope and at
most two writes occurred. -/
theorem claim_C1_witness :
    rq2.cancelled = false
    ∧ rq2.content.truthyText = true
    ∧ countWrites (runBurst cEnv cFile rq0 ([rq1] ++ [rq2]) ⟨[]⟩).trace ≤ 2
    ∧ fsReadFile (runBurst cEnv cFile rq0 ([rq1] ++ [rq2]) ⟨[]⟩).fs
        (getHashedFileName cEnv (getStaticStorageKey cFile))
      = some (mkEnvelope rq2.content 1) := by
  have h := claim_C1_burst_coalescing cEnv cFile rq0 rq2 [rq1] ⟨[]⟩ rfl (by decide)
  exact ⟨rfl, by decide, h.2.1, h.2.2⟩

/-- C2 (amended): when a Writing cycle completes with a pending request, the
coordinator clears the pending slot and re-invokes backup exactly once with
that pending request's model content and cancellation token but with NO
backup id (the source stores only `{ model, cancellation }` and calls
`this.backup(requested.model, requested.cancellation)`), so the follow-up
write lands under the default storage key; the follow-up's failures are
logged and not propagated (in this embedding every store completes). -/
theorem claim_C2_followup_params (env : Env) (file : Uri) (r0 rL : BackupRequest)
    (rs : List BackupRequest) (fs0 : FileSys) :
    (runBurst env file r0 (rs ++ [rL]) fs0).backupRequested = none
    ∧ runBurst env file r0 (rs ++ [rL]) fs0
        = completeFlight env file ⟨rL.content, rL.cancelled, none⟩
            { completeFlight env file r0
                ((rs ++ [rL]).foldl backupArrive
                  { backingUp := true, backupRequested := none, fs := fs0,
                    clock := 0, trace := [] })
              with backupRequested := none, backingUp := true }
    ∧ (runBurst env file r0 (rs ++ [rL]) fs0).trace
        = (storeContentsInHotExitFile env fs0 0 r0.content file
            r0.cancelled r0.backupId).2
          ++ (storeContentsInHotExitFile env
                (storeContentsInHotExitFile env fs0 0 r0.content file
                  r0.cancelled r0.backupId).1
                1 rL.content file rL.cancelled none).2 := by
  refine ⟨?_, ?_, ?_⟩
  · rw [runBurst_eval]
  · rw [runBurst_eval, backupArrive_append_last rs rL _ rfl]
    unfold completeFlight
    rfl
  · rw [runBurst_eval]

/-- Counterexample for C2 as stated: the pending request was submitted with
backup id `b`, yet after the burst no record exists under `b`'s hashed path —
the follow-up re-invocation dropped the backup id and wrote under the default
storage key instead. -/
theorem claim_C2_counterexample :
    rqB.backupId = some "b"
    ∧ fsReadFile (runBurst cEnv cFile rq0 [rqB] ⟨[]⟩).fs
        (getHashedFileName cEnv "b") = none
    ∧ fsReadFile (runBurst cEnv cFile rq0 [rqB] ⟨[]⟩).fs
        (getHashedFileName cEnv (getStaticStorageKey cFile))
      = some (mkEnvelope (.plain "c1") 1) :=
  ⟨rfl, rfl, rfl⟩

end NativeEditorStorage
